import Mathlib

/-!
Shallow embedding of the multi-language code-execution dispatcher in
`src/app/api/run/route.ts` (the `/api/run` Next.js route).

The embedding mirrors the source:
* `Candidate`, `ExecutionResult`, `LanguageSpec`, `LANGUAGE_SPECS` are the
  data model and the static registry, transcribed entry by entry.
* `applyVars` / `materialize` model the placeholder substitution done with
  the regex over the keys `file`, `exe`, `dir` (global, left-to-right).
* `runCommand` is event-driven in the source (`data`, `error`, `close`
  handlers plus a timer); it is modelled as a fold of a step function over
  an explicit trace of child-process events, returning the resolved
  `ExecutionResult` (or `none` when the promise never resolves).
* `runCandidates` takes the per-host behaviour of `runCommand` as an
  oracle `exec : Candidate → ExecutionResult` and additionally returns the
  list of candidates actually spawned, making the spawn side effects
  explicit.
* `POST` models the route handler after its `verifyApiSecurity` gate
  (authentication is an external collaborator outside the dispatcher
  spec), with the JSON body already coerced to the two strings the source
  extracts, and with the filesystem and process side effects reified as an
  `Effect` list.  `fs.writeFile` can reject in the source and sits outside
  the `try`/`finally`, so the model carries a `writeOk` flag on the host;
  `fs.rm` failure is carried as `rmOk`.
-/

namespace RunRoute

/-- A command plus argument template, from the `Candidate` type of the route. -/
structure Candidate where
  command : String
  args : List String
deriving DecidableEq, Repr

/-- Result of one candidate execution, from the `ExecutionResult` type of the route. -/
structure ExecutionResult where
  exitCode : Int
  stdout : String
  stderr : String
  timedOut : Bool
  notFound : Bool
deriving DecidableEq, Repr

/-- The three-key substitution map built by `POST` (`file`, `exe`, `dir`). -/
structure Vars where
  file : String
  exe : String
  dir : String
deriving DecidableEq, Repr

/-- `MAX_OUTPUT` constant of the route: per-stream output cap in characters. -/
def MAX_OUTPUT : Nat := 200000

/-- `EXEC_TIMEOUT_MS` constant of the route: wall-clock timeout per candidate. -/
def EXEC_TIMEOUT_MS : Nat := 15000

/-- Substitution on the character list of a string: the regex
`\x7b(file|exe|dir)\x7d` replaced globally left to right, each match replaced
by the corresponding field of `vars`, every other character copied. -/
def applyVarsList (vars : Vars) : List Char → List Char
  | '\x7b' :: 'f' :: 'i' :: 'l' :: 'e' :: '\x7d' :: rest => vars.file.data ++ applyVarsList vars rest
  | '\x7b' :: 'e' :: 'x' :: 'e' :: '\x7d' :: rest => vars.exe.data ++ applyVarsList vars rest
  | '\x7b' :: 'd' :: 'i' :: 'r' :: '\x7d' :: rest => vars.dir.data ++ applyVarsList vars rest
  | c :: rest => c :: applyVarsList vars rest
  | [] => []

/-- `applyVars` of the route: replace the three placeholders in one string. -/
def applyVars (value : String) (vars : Vars) : String :=
  ⟨applyVarsList vars value.data⟩

/-- `materialize` of the route: substitute placeholders in the command and in every argument. -/
def materialize (candidate : Candidate) (vars : Vars) : Candidate :=
  { command := applyVars candidate.command vars
    args := candidate.args.map (fun arg => applyVars arg vars) }

/-- One event delivered to the handlers registered by `runCommand`:
a stdout chunk, a stderr chunk, the 15 s timer firing, a spawn `error`
event (with its `ENOENT` flag and message), or the `close` event with the
child's exit code (`none` when the child was killed by a signal). -/
inductive ChildEvent where
  | outData (chunk : String)
  | errData (chunk : String)
  | timerFired
  | spawnError (enoent : Bool) (msg : String)
  | close (code : Option Int)
deriving DecidableEq, Repr

/-- Whether an event is a pure output-data event. -/
def ChildEvent.isData : ChildEvent → Bool
  | .outData _ => true
  | .errData _ => true
  | _ => false

/-- The mutable state of one `runCommand` promise: the accumulators, the
flags, and the resolved result once `done` ran. -/
structure RCState where
  stdout : String
  stderr : String
  timedOut : Bool
  notFound : Bool
  finished : Bool
  result : Option ExecutionResult
deriving DecidableEq, Repr

/-- Initial state of `runCommand` right after spawn. -/
def RCState.init : RCState :=
  { stdout := "", stderr := "", timedOut := false, notFound := false
    finished := false, result := none }

/-- The `done` closure of `runCommand`: resolve once with a snapshot of the
accumulators and flags; later calls are ignored. -/
def RCState.done (s : RCState) (exitCode : Int) : RCState :=
  if s.finished then s
  else
    { s with
      finished := true
      result := some
        { exitCode := exitCode, stdout := s.stdout, stderr := s.stderr
          timedOut := s.timedOut, notFound := s.notFound } }

/-- One handler invocation of `runCommand`: data chunks append only while
the stream's accumulator is still under `MAX_OUTPUT`; the timer sets
`timedOut` (and kills the child, which later yields `close none`); an
`ENOENT` spawn error resolves with `notFound` and exit code 127; any other
spawn error appends the message to stderr and resolves with exit code 1;
`close` resolves with the child's code, `null` mapped to 0. -/
def RCState.step (s : RCState) : ChildEvent → RCState
  | .outData chunk =>
      if s.stdout.length < MAX_OUTPUT then { s with stdout := s.stdout ++ chunk } else s
  | .errData chunk =>
      if s.stderr.length < MAX_OUTPUT then { s with stderr := s.stderr ++ chunk } else s
  | .timerFired => { s with timedOut := true }
  | .spawnError enoent msg =>
      if enoent then ({ s with notFound := true }).done 127
      else ({ s with stderr := s.stderr ++ msg }).done 1
  | .close code => s.done (code.getD 0)

/-- `runCommand` of the route, as a function of the event trace the spawned
child delivers: the resolved `ExecutionResult`, or `none` when no resolving
event occurred. -/
def runCommand (events : List ChildEvent) : Option ExecutionResult :=
  (events.foldl RCState.step RCState.init).result

lemma runCommand_eq (events : List ChildEvent) :
    runCommand events = (events.foldl RCState.step RCState.init).result := rfl

/-- The `last` initializer of `runCandidates`: nothing ran yet. -/
def notRunResult : ExecutionResult :=
  { exitCode := 127, stdout := "", stderr := "", timedOut := false, notFound := true }

/-- Loop body of `runCandidates`: try each candidate in order, remember the
last result, break as soon as a result is not `notFound`.  Also returns the
list of materialized candidates actually spawned. -/
def runCandidatesGo (exec : Candidate → ExecutionResult) (vars : Vars) :
    List Candidate → ExecutionResult → ExecutionResult × List Candidate
  | [], last => (last, [])
  | c :: rest, _ =>
      let m := materialize c vars
      let r := exec m
      if r.notFound then
        let p := runCandidatesGo exec vars rest r
        (p.1, m :: p.2)
      else (r, [m])

/-- `runCandidates` of the route: fallback search over one phase's candidate
list, starting from the `notFound` default. -/
def runCandidates (exec : Candidate → ExecutionResult) (candidates : List Candidate)
    (vars : Vars) : ExecutionResult × List Candidate :=
  runCandidatesGo exec vars candidates notRunResult

/-- The closed `RunLanguage` enumeration of the route, one constructor per
registry key. -/
inductive RunLanguage where
  | python | javascript | typescript | java | c | cpp | csharp | go | rust
  | php | swift | kotlin | ruby | dart | r | sql | html | css | bash
  | powershell | scala | haskell | elixir | erlang | lua | matlab
  | objectivec | vbnet | vba | fsharp | perl | groovy | clojure | julia
  | assembly | cobol | fortran | ada | lisp | prolog | scratch | solidity
  | apex | plsql | abap | gdscript | qsharp | nim | crystal | rescript
deriving DecidableEq, Repr

/-- The `LanguageSpec` tagged union of the route: direct interpretation,
compile then run, or unsupported with a fixed reason. -/
inductive LanguageSpec where
  | direct (ext : String) (candidates : List Candidate) (filename : Option String)
  | compileRun (ext : String) (compile : List Candidate) (run : List Candidate)
      (filename : Option String)
  | unsupported (ext : String) (reason : String)
deriving DecidableEq, Repr

/-- Whether a spec is executable at all (direct or compiled). -/
def LanguageSpec.isSupported : LanguageSpec → Bool
  | .unsupported _ _ => false
  | _ => true

/-- The `ext` field of a spec. -/
def LanguageSpec.extOf : LanguageSpec → String
  | .direct ext _ _ => ext
  | .compileRun ext _ _ _ => ext
  | .unsupported ext _ => ext

/-- The optional `filename` field of a spec. -/
def LanguageSpec.filenameOf : LanguageSpec → Option String
  | .direct _ _ filename => filename
  | .compileRun _ _ _ filename => filename
  | .unsupported _ _ => none

/-- The `LANGUAGE_SPECS` registry of the route, transcribed entry by entry. -/
def LANGUAGE_SPECS : RunLanguage → LanguageSpec
  | .python => .direct "py"
      [⟨"python", ["{file}"]⟩, ⟨"py", ["-3", "{file}"]⟩] none
  | .javascript => .direct "js" [⟨"node", ["{file}"]⟩] none
  | .typescript => .direct "ts"
      [⟨"tsx", ["{file}"]⟩, ⟨"ts-node", ["{file}"]⟩,
       ⟨"deno", ["run", "--allow-all", "{file}"]⟩] none
  | .java => .compileRun "java"
      [⟨"javac", ["{file}"]⟩]
      [⟨"java", ["-cp", "{dir}", "Main"]⟩] (some "Main.java")
  | .c => .compileRun "c"
      [⟨"gcc", ["{file}", "-O2", "-o", "{exe}"]⟩,
       ⟨"clang", ["{file}", "-O2", "-o", "{exe}"]⟩]
      [⟨"{exe}", []⟩] (some "main.c")
  | .cpp => .compileRun "cpp"
      [⟨"g++", ["{file}", "-O2", "-std=c++17", "-o", "{exe}"]⟩,
       ⟨"clang++", ["{file}", "-O2", "-std=c++17", "-o", "{exe}"]⟩]
      [⟨"{exe}", []⟩] (some "main.cpp")
  | .csharp => .compileRun "cs"
      [⟨"csc", ["/nologo", "/out:{exe}.exe", "{file}"]⟩,
       ⟨"mcs", ["-out:{exe}.exe", "{file}"]⟩]
      [⟨"{exe}.exe", []⟩, ⟨"dotnet", ["{exe}.exe"]⟩] (some "Program.cs")
  | .go => .compileRun "go"
      [⟨"go", ["build", "-o", "{exe}", "{file}"]⟩]
      [⟨"{exe}", []⟩] (some "main.go")
  | .rust => .compileRun "rs"
      [⟨"rustc", ["{file}", "-O", "-o", "{exe}"]⟩]
      [⟨"{exe}", []⟩] (some "main.rs")
  | .php => .direct "php" [⟨"php", ["{file}"]⟩] none
  | .swift => .direct "swift" [⟨"swift", ["{file}"]⟩] none
  | .kotlin => .direct "kt" [⟨"kotlinc", ["-script", "{file}"]⟩] none
  | .ruby => .direct "rb" [⟨"ruby", ["{file}"]⟩] none
  | .dart => .direct "dart" [⟨"dart", ["run", "{file}"]⟩] none
  | .r => .direct "r"
      [⟨"Rscript", ["{file}"]⟩, ⟨"R", ["--vanilla", "-f", "{file}"]⟩] none
  | .sql => .unsupported "sql" "SQL needs a concrete DB engine/connection."
  | .html => .unsupported "html" "HTML is markup and not directly executable by this runner."
  | .css => .unsupported "css" "CSS is stylesheet code and not directly executable by this runner."
  | .bash => .direct "sh" [⟨"bash", ["{file}"]⟩] none
  | .powershell => .direct "ps1"
      [⟨"pwsh", ["-File", "{file}"]⟩,
       ⟨"powershell", ["-ExecutionPolicy", "Bypass", "-File", "{file}"]⟩] none
  | .scala => .direct "scala" [⟨"scala", ["{file}"]⟩] none
  | .haskell => .direct "hs" [⟨"runghc", ["{file}"]⟩] none
  | .elixir => .direct "exs" [⟨"elixir", ["{file}"]⟩] none
  | .erlang => .direct "erl" [⟨"escript", ["{file}"]⟩] none
  | .lua => .direct "lua" [⟨"lua", ["{file}"]⟩] none
  | .matlab => .direct "m" [⟨"octave", ["--silent", "{file}"]⟩] none
  | .objectivec => .compileRun "m"
      [⟨"clang", ["{file}", "-o", "{exe}"]⟩]
      [⟨"{exe}", []⟩] (some "main.m")
  | .vbnet => .compileRun "vb"
      [⟨"vbc", ["/nologo", "/out:{exe}.exe", "{file}"]⟩]
      [⟨"{exe}.exe", []⟩] (some "Program.vb")
  | .vba => .unsupported "vba" "VBA requires an Office host application (Excel/Word)."
  | .fsharp => .direct "fsx" [⟨"dotnet", ["fsi", "{file}"]⟩] none
  | .perl => .direct "pl" [⟨"perl", ["{file}"]⟩] none
  | .groovy => .direct "groovy" [⟨"groovy", ["{file}"]⟩] none
  | .clojure => .direct "clj"
      [⟨"clojure", ["{file}"]⟩, ⟨"bb", ["{file}"]⟩] none
  | .julia => .direct "jl" [⟨"julia", ["{file}"]⟩] none
  | .assembly => .unsupported "asm" "Assembly needs a target architecture and linker workflow."
  | .cobol => .compileRun "cob"
      [⟨"cobc", ["-x", "{file}", "-o", "{exe}"]⟩]
      [⟨"{exe}", []⟩] (some "main.cob")
  | .fortran => .compileRun "f90"
      [⟨"gfortran", ["{file}", "-o", "{exe}"]⟩]
      [⟨"{exe}", []⟩] (some "main.f90")
  | .ada => .compileRun "adb"
      [⟨"gnatmake", ["{file}", "-o", "{exe}"]⟩]
      [⟨"{exe}", []⟩] (some "main.adb")
  | .lisp => .direct "lisp"
      [⟨"sbcl", ["--script", "{file}"]⟩, ⟨"clisp", ["{file}"]⟩] none
  | .prolog => .direct "pl"
      [⟨"swipl", ["-q", "-s", "{file}", "-g", "main", "-t", "halt"]⟩] none
  | .scratch => .unsupported "sb3" "Scratch projects are not text executables in this runner."
  | .solidity => .unsupported "sol" "Solidity needs a blockchain toolchain/runtime (solc/evm)."
  | .apex => .unsupported "cls" "Apex runs only inside Salesforce environments."
  | .plsql => .unsupported "sql" "PL/SQL needs an Oracle DB runtime."
  | .abap => .unsupported "abap" "ABAP runs inside SAP systems."
  | .gdscript => .direct "gd" [⟨"godot", ["--headless", "--script", "{file}"]⟩] none
  | .qsharp => .direct "qs" [⟨"dotnet", ["run", "{file}"]⟩] none
  | .nim => .compileRun "nim"
      [⟨"nim", ["c", "-o:{exe}", "{file}"]⟩]
      [⟨"{exe}", []⟩] (some "main.nim")
  | .crystal => .compileRun "cr"
      [⟨"crystal", ["build", "{file}", "-o", "{exe}"]⟩]
      [⟨"{exe}", []⟩] (some "main.cr")
  | .rescript => .unsupported "res" "ReasonML/ReScript needs a project compiler toolchain."

/-- The registry key of each language, as the JSON `language` string. -/
def languageKey : RunLanguage → String
  | .python => "python" | .javascript => "javascript" | .typescript => "typescript"
  | .java => "java" | .c => "c" | .cpp => "cpp" | .csharp => "csharp"
  | .go => "go" | .rust => "rust" | .php => "php" | .swift => "swift"
  | .kotlin => "kotlin" | .ruby => "ruby" | .dart => "dart" | .r => "r"
  | .sql => "sql" | .html => "html" | .css => "css" | .bash => "bash"
  | .powershell => "powershell" | .scala => "scala" | .haskell => "haskell"
  | .elixir => "elixir" | .erlang => "erlang" | .lua => "lua"
  | .matlab => "matlab" | .objectivec => "objectivec" | .vbnet => "vbnet"
  | .vba => "vba" | .fsharp => "fsharp" | .perl => "perl" | .groovy => "groovy"
  | .clojure => "clojure" | .julia => "julia" | .assembly => "assembly"
  | .cobol => "cobol" | .fortran => "fortran" | .ada => "ada" | .lisp => "lisp"
  | .prolog => "prolog" | .scratch => "scratch" | .solidity => "solidity"
  | .apex => "apex" | .plsql => "plsql" | .abap => "abap"
  | .gdscript => "gdscript" | .qsharp => "qsharp" | .nim => "nim"
  | .crystal => "crystal" | .rescript => "rescript"

/-- Lookup of a raw language string among the registry's own keys, the
model of `Object.prototype.hasOwnProperty.call(LANGUAGE_SPECS, value)`
combined with the subsequent indexing. -/
def parseLanguage : String → Option RunLanguage
  | "python" => some .python | "javascript" => some .javascript
  | "typescript" => some .typescript | "java" => some .java | "c" => some .c
  | "cpp" => some .cpp | "csharp" => some .csharp | "go" => some .go
  | "rust" => some .rust | "php" => some .php | "swift" => some .swift
  | "kotlin" => some .kotlin | "ruby" => some .ruby | "dart" => some .dart
  | "r" => some .r | "sql" => some .sql | "html" => some .html
  | "css" => some .css | "bash" => some .bash | "powershell" => some .powershell
  | "scala" => some .scala | "haskell" => some .haskell
  | "elixir" => some .elixir | "erlang" => some .erlang | "lua" => some .lua
  | "matlab" => some .matlab | "objectivec" => some .objectivec
  | "vbnet" => some .vbnet | "vba" => some .vba | "fsharp" => some .fsharp
  | "perl" => some .perl | "groovy" => some .groovy | "clojure" => some .clojure
  | "julia" => some .julia | "assembly" => some .assembly
  | "cobol" => some .cobol | "fortran" => some .fortran | "ada" => some .ada
  | "lisp" => some .lisp | "prolog" => some .prolog | "scratch" => some .scratch
  | "solidity" => some .solidity | "apex" => some .apex | "plsql" => some .plsql
  | "abap" => some .abap | "gdscript" => some .gdscript
  | "qsharp" => some .qsharp | "nim" => some .nim | "crystal" => some .crystal
  | "rescript" => some .rescript
  | _ => none

/-- `isValidLanguage` of the route. -/
def isValidLanguage (value : String) : Bool :=
  (parseLanguage value).isSome

/-- One JSON body returned by the route; absent fields are `none`. -/
structure JsonResponse where
  status : Nat
  ok : Option Bool
  error : Option String
  exitCode : Option Int
  timedOut : Option Bool
  stdout : Option String
  stderr : Option String
deriving DecidableEq, Repr

/-- Validation rejection (`Code is empty.` / `Unsupported language.`): only
an `error` field, status 400. -/
def validationResponse (msg : String) : JsonResponse :=
  { status := 400, ok := none, error := some msg, exitCode := none
    timedOut := none, stdout := none, stderr := none }

/-- Response for a recognized but unsupported language. -/
def unsupportedResponse (reason : String) : JsonResponse :=
  { status := 400, ok := some false, error := some reason, exitCode := some 2
    timedOut := some false, stdout := some "", stderr := some reason }

/-- Response when every direct-phase interpreter candidate was missing. -/
def runtimeMissingResponse (key : String) : JsonResponse :=
  { status := 400, ok := some false
    error := some ("No installed runtime found for " ++ key ++ ".")
    exitCode := some 127, timedOut := some false
    stdout := some "", stderr := some "" }

/-- Response when every compile-phase candidate was missing. -/
def compilerMissingResponse (key : String) (res : ExecutionResult) : JsonResponse :=
  { status := 400, ok := some false
    error := some ("No installed compiler found for " ++ key ++ ".")
    exitCode := some 127, timedOut := some false
    stdout := some res.stdout, stderr := some res.stderr }

/-- Response when compilation ran but exited nonzero or timed out; `ok` is
the literal `false` of the source. -/
def compileFailedResponse (res : ExecutionResult) : JsonResponse :=
  { status := 200, ok := some false, error := none
    exitCode := some res.exitCode, timedOut := some res.timedOut
    stdout := some res.stdout, stderr := some res.stderr }

/-- Response when compilation succeeded but every run-phase candidate was
missing. -/
def compiledRuntimeMissingResponse (key : String) (res : ExecutionResult) : JsonResponse :=
  { status := 400, ok := some false
    error := some ("Compiled " ++ key ++ ", but executable runtime is missing.")
    exitCode := some 127, timedOut := some false
    stdout := some res.stdout, stderr := some res.stderr }

/-- Terminal response of a phase that really ran: status 200, `ok` computed
from the exit code and the timeout flag. -/
def terminalResponse (res : ExecutionResult) : JsonResponse :=
  { status := 200, ok := some (res.exitCode == 0 && !res.timedOut), error := none
    exitCode := some res.exitCode, timedOut := some res.timedOut
    stdout := some res.stdout, stderr := some res.stderr }

/-- Host-dependent behaviour the route interacts with: the outcome of
spawning each materialized candidate, whether `fs.writeFile` succeeds,
whether `fs.rm` succeeds, the platform, the temp root and the random UUID
of this invocation. -/
structure Host where
  exec : Candidate → ExecutionResult
  writeOk : Bool
  rmOk : Bool
  isWin : Bool
  tmpDir : String
  uuid : String

/-- One observable side effect of the route. -/
inductive Effect where
  | mkdirE (dir : String)
  | writeE (file : String) (content : String)
  | spawnE (c : Candidate)
  | rmE (dir : String) (ok : Bool)
deriving DecidableEq, Repr

/-- Route outcome: a JSON response, or an uncaught exception. -/
inductive Outcome where
  | response (r : JsonResponse)
  | thrown (msg : String)
deriving DecidableEq, Repr

/-- Model of the JS falsiness test `!code.trim()`: the trimmed string is
empty exactly when every character of `code` is whitespace. -/
def isBlank (s : String) : Bool :=
  s.data.all Char.isWhitespace

/-- `path.join` restricted to the two-segment uses of the route. -/
def pathJoin (a b : String) : String := a ++ "/" ++ b

/-- Workspace directory for this invocation. -/
def Host.runDir (host : Host) : String :=
  pathJoin host.tmpDir ("pair-run-" ++ host.uuid)

/-- Source file path for this invocation under spec `sp`. -/
def Host.filePath (host : Host) (sp : LanguageSpec) : String :=
  pathJoin host.runDir (sp.filenameOf.getD ("main." ++ sp.extOf))

/-- Executable path for this invocation, platform-suffixed. -/
def Host.exePath (host : Host) : String :=
  pathJoin host.runDir (if host.isWin then "program.exe" else "program")

/-- Substitution map for this invocation under spec `sp`. -/
def Host.vars (host : Host) (sp : LanguageSpec) : Vars :=
  { file := host.filePath sp, exe := host.exePath, dir := host.runDir }

/-- The `try` block of the route for a direct or compiled spec: the response
and the spawn effects of the phases actually attempted. -/
def runPhases (host : Host) (key : String) (sp : LanguageSpec) :
    JsonResponse × List Effect :=
  match sp with
  | .direct _ candidates _ =>
      let p := runCandidates host.exec candidates (host.vars sp)
      if p.1.notFound then (runtimeMissingResponse key, p.2.map .spawnE)
      else (terminalResponse p.1, p.2.map .spawnE)
  | .compileRun _ compileCs runCs _ =>
      let cp := runCandidates host.exec compileCs (host.vars sp)
      if cp.1.notFound then (compilerMissingResponse key cp.1, cp.2.map .spawnE)
      else if cp.1.exitCode != 0 || cp.1.timedOut then
        (compileFailedResponse cp.1, cp.2.map .spawnE)
      else
        let rp := runCandidates host.exec runCs (host.vars sp)
        if rp.1.notFound then
          (compiledRuntimeMissingResponse key rp.1, (cp.2 ++ rp.2).map .spawnE)
        else (terminalResponse rp.1, (cp.2 ++ rp.2).map .spawnE)
  | .unsupported _ reason => (unsupportedResponse reason, [])

/-- The `POST` handler of the route after its security gate, with the JSON
body already coerced to the `code` and `language` strings the source
extracts.  Returns the outcome plus the ordered list of side effects.
`fs.writeFile` precedes the `try`, so a write failure throws with the
workspace directory already created and never removed; inside the
`try`/`finally` the removal is attempted on every path and its own failure
is swallowed by the `catch`. -/
def POST (host : Host) (code : String) (languageInput : String) :
    Outcome × List Effect :=
  if isBlank code then
    (.response (validationResponse "Code is empty."), [])
  else
    match parseLanguage languageInput with
    | none => (.response (validationResponse "Unsupported language."), [])
    | some language =>
      match LANGUAGE_SPECS language with
      | .unsupported _ reason => (.response (unsupportedResponse reason), [])
      | sp =>
        if host.writeOk then
          let p := runPhases host (languageKey language) sp
          (.response p.1,
           [.mkdirE host.runDir, .writeE (host.filePath sp) code] ++ p.2 ++
             [.rmE host.runDir host.rmOk])
        else
          (.thrown "writeFile failed", [.mkdirE host.runDir])

/-! Helper lemmas shared by the claim theorems. -/

lemma parseLanguage_languageKey (lang : RunLanguage) :
    parseLanguage (languageKey lang) = some lang := by
  cases lang <;> rfl

lemma POST_unsupported_eq (host : Host) (code li : String) (lang : RunLanguage)
    (ext reason : String) (h1 : isBlank code = false) (h2 : parseLanguage li = some lang)
    (h3 : LANGUAGE_SPECS lang = .unsupported ext reason) :
    POST host code li = (.response (unsupportedResponse reason), []) := by
  simp only [POST, h1, h2, h3, Bool.false_eq_true, if_false]

lemma POST_guarded_eq (host : Host) (code li : String) (lang : RunLanguage)
    (h1 : isBlank code = false) (h2 : parseLanguage li = some lang)
    (h3 : (LANGUAGE_SPECS lang).isSupported = true)
    (h4 : host.writeOk = true) :
    POST host code li =
      (.response (runPhases host (languageKey lang) (LANGUAGE_SPECS lang)).1,
       [.mkdirE host.runDir,
        .writeE (host.filePath (LANGUAGE_SPECS lang)) code] ++
         (runPhases host (languageKey lang) (LANGUAGE_SPECS lang)).2 ++
         [.rmE host.runDir host.rmOk]) := by
  simp only [POST, h1, h2, Bool.false_eq_true, if_false]
  cases h : LANGUAGE_SPECS lang with
  | direct ext cs fn => simp [h, h4]
  | compileRun ext cCs rCs fn => simp [h, h4]
  | unsupported ext reason => rw [h] at h3; exact absurd h3 (by simp [LanguageSpec.isSupported])

/-- Claim C7: a request whose code is empty or whitespace-only is rejected
with the 400 validation error before any workspace is created or process
executed, and a request whose language string is not a registry key is
rejected with the 400 validation error before any process is spawned. -/
theorem claim7_input_validation (host : Host) (code li : String) :
    (isBlank code = true →
      POST host code li = (.response (validationResponse "Code is empty."), [])) ∧
    (isBlank code = false → parseLanguage li = none →
      POST host code li =
        (.response (validationResponse "Unsupported language."), [])) ∧
    (validationResponse "Code is empty.").status = 400 ∧
    (validationResponse "Unsupported language.").status = 400 := by
  refine ⟨fun h => by simp [POST, h], fun h1 h2 => by simp [POST, h1, h2], rfl, rfl⟩

/-- Witness for C7 at concrete inputs: whitespace-only code, and an
unrecognized language string. -/
theorem claim7_input_validation_witness :
    (isBlank "  " = true ∧ isBlank "x" = false ∧ parseLanguage "brainfuck" = none) ∧
    POST ⟨fun _ => notRunResult, true, true, false, "/tmp", "u"⟩ "  " "python" =
      (.response (validationResponse "Code is empty."), []) ∧
    POST ⟨fun _ => notRunResult, true, true, false, "/tmp", "u"⟩ "x" "brainfuck" =
      (.response (validationResponse "Unsupported language."), []) := by
  refine ⟨⟨by decide, by decide, by decide⟩, ?_, ?_⟩
  · exact (claim7_input_validation _ "  " "python").1 (by decide)
  · exact (claim7_input_validation _ "x" "brainfuck").2.1 (by decide) (by decide)

/-- Claim C6: for every language whose registry entry is the unsupported
variant, any non-blank submission returns status 400 with ok false,
exitCode 2, timedOut false, empty stdout, and both stderr and error equal
to the entry's fixed reason, with no filesystem or process effects. -/
theorem claim6_unsupported_languages (host : Host) (code : String)
    (lang : RunLanguage) (ext reason : String)
    (h1 : isBlank code = false) (h3 : LANGUAGE_SPECS lang = .unsupported ext reason) :
    POST host code (languageKey lang) =
      (.response
        { status := 400, ok := some false, error := some reason
          exitCode := some 2, timedOut := some false
          stdout := some "", stderr := some reason }, []) := by
  rw [POST_unsupported_eq host code (languageKey lang) lang ext reason h1
    (parseLanguage_languageKey lang) h3]
  rfl

/-- Witness for C6: the SQL entry of the registry. -/
theorem claim6_unsupported_languages_witness :
    isBlank "select 1" = false ∧
    LANGUAGE_SPECS .sql = .unsupported "sql" "SQL needs a concrete DB engine/connection." ∧
    POST ⟨fun _ => notRunResult, true, true, false, "/tmp", "u"⟩ "select 1" "sql" =
      (.response
        { status := 400, ok := some false
          error := some "SQL needs a concrete DB engine/connection."
          exitCode := some 2, timedOut := some false
          stdout := some ""
          stderr := some "SQL needs a concrete DB engine/connection." }, []) :=
  ⟨by decide, rfl,
   claim6_unsupported_languages _ "select 1" .sql "sql"
     "SQL needs a concrete DB engine/connection." (by decide) rfl⟩

/-- Claim C8 counterexample: with a host whose source-file write fails, the
invocation creates the workspace directory (`mkdir` effect present), exits
by exception, and never attempts the removal — `fs.writeFile` sits before
the `try` whose `finally` performs cleanup, so this exit path removes
nothing. -/
theorem claim8_cleanup_counterexample :
    POST ⟨fun _ => notRunResult, false, true, false, "/tmp", "u"⟩ "x" "python" =
      (.thrown "writeFile failed", [.mkdirE "/tmp/pair-run-u"]) ∧
    Effect.mkdirE "/tmp/pair-run-u" ∈
      (POST ⟨fun _ => notRunResult, false, true, false, "/tmp", "u"⟩ "x" "python").2 ∧
    (∀ b : Bool, Effect.rmE "/tmp/pair-run-u" b ∉
      (POST ⟨fun _ => notRunResult, false, true, false, "/tmp", "u"⟩ "x" "python").2) := by
  refine ⟨by decide, by decide, ?_⟩
  intro b
  cases b <;> decide

/-- Claim C8 as amended: once the source file has been written successfully,
the workspace removal is attempted on every exit path of the execution
phase, and the primary outcome is independent of whether the removal itself
succeeds; an exception thrown by the source-file write occurs after
directory creation and escapes cleanup. -/
theorem claim8_workspace_cleanup (host : Host) (code li : String)
    (lang : RunLanguage) (h1 : isBlank code = false)
    (h2 : parseLanguage li = some lang)
    (h3 : (LANGUAGE_SPECS lang).isSupported = true)
    (h4 : host.writeOk = true) :
    (∃ mid, (POST host code li).2 =
        .mkdirE host.runDir :: (mid ++ [.rmE host.runDir host.rmOk])) ∧
    (∀ b : Bool,
      (POST { host with rmOk := b } code li).1 = (POST host code li).1) := by
  constructor
  · rw [POST_guarded_eq host code li lang h1 h2 h3 h4]
    exact ⟨.writeE (host.filePath (LANGUAGE_SPECS lang)) code ::
      (runPhases host (languageKey lang) (LANGUAGE_SPECS lang)).2, by simp⟩
  · intro b
    rw [POST_guarded_eq host code li lang h1 h2 h3 h4,
      POST_guarded_eq { host with rmOk := b } code li lang h1 h2 h3 h4]
    cases LANGUAGE_SPECS lang <;> rfl

/-- Witness for the amended C8: a concrete python invocation whose removal
flag is false still yields the same primary outcome, and its effect list
ends with the removal. -/
theorem claim8_workspace_cleanup_witness :
    (isBlank "x" = false ∧ parseLanguage "python" = some .python ∧
      (LANGUAGE_SPECS .python).isSupported = true) ∧
    ((∃ mid, (POST ⟨fun _ => notRunResult, true, false, false, "/tmp", "u"⟩ "x" "python").2 =
        .mkdirE (Host.runDir ⟨fun _ => notRunResult, true, false, false, "/tmp", "u"⟩) ::
          (mid ++ [.rmE (Host.runDir ⟨fun _ => notRunResult, true, false, false, "/tmp", "u"⟩) false])) ∧
     (∀ b : Bool,
       (POST { (⟨fun _ => notRunResult, true, false, false, "/tmp", "u"⟩ : Host) with rmOk := b }
          "x" "python").1 =
       (POST ⟨fun _ => notRunResult, true, false, false, "/tmp", "u"⟩ "x" "python").1)) :=
  ⟨⟨by decide, rfl, rfl⟩,
   claim8_workspace_cleanup ⟨fun _ => notRunResult, true, false, false, "/tmp", "u"⟩
     "x" "python" .python (by decide) rfl rfl rfl⟩

/-- Claim C2: two-phase orchestration for every compiled language: a
compile search ending `notFound` yields the 400 compiler-missing error with
exit code 127; a compile result with nonzero exit or timeout yields the
compile-failure response carrying the compiler's stdout/stderr, with no
run-phase candidate ever spawned; a successful compile whose run search
ends `notFound` yields the distinct 400 compiled-but-runtime-missing error
with exit code 127; otherwise the run phase's terminal response is
returned. -/
theorem claim2_two_phase_orchestration (host : Host) (code li : String)
    (lang : RunLanguage) (ext : String) (cCs rCs : List Candidate)
    (fn : Option String) (h1 : isBlank code = false)
    (h2 : parseLanguage li = some lang)
    (h3 : LANGUAGE_SPECS lang = .compileRun ext cCs rCs fn)
    (h4 : host.writeOk = true) :
    ((runCandidates host.exec cCs (host.vars (.compileRun ext cCs rCs fn))).1.notFound = true →
      (POST host code li).1 = .response (compilerMissingResponse (languageKey lang)
        (runCandidates host.exec cCs (host.vars (.compileRun ext cCs rCs fn))).1) ∧
      (compilerMissingResponse (languageKey lang)
        (runCandidates host.exec cCs (host.vars (.compileRun ext cCs rCs fn))).1).status = 400 ∧
      (compilerMissingResponse (languageKey lang)
        (runCandidates host.exec cCs (host.vars (.compileRun ext cCs rCs fn))).1).exitCode = some 127 ∧
      (compilerMissingResponse (languageKey lang)
        (runCandidates host.exec cCs (host.vars (.compileRun ext cCs rCs fn))).1).error =
          some ("No installed compiler found for " ++ languageKey lang ++ ".")) ∧
    ((runCandidates host.exec cCs (host.vars (.compileRun ext cCs rCs fn))).1.notFound = false →
      ((runCandidates host.exec cCs (host.vars (.compileRun ext cCs rCs fn))).1.exitCode ≠ 0 ∨
        (runCandidates host.exec cCs (host.vars (.compileRun ext cCs rCs fn))).1.timedOut = true) →
      (POST host code li).1 = .response (compileFailedResponse
        (runCandidates host.exec cCs (host.vars (.compileRun ext cCs rCs fn))).1) ∧
      (compileFailedResponse
        (runCandidates host.exec cCs (host.vars (.compileRun ext cCs rCs fn))).1).stdout =
          some (runCandidates host.exec cCs (host.vars (.compileRun ext cCs rCs fn))).1.stdout ∧
      (compileFailedResponse
        (runCandidates host.exec cCs (host.vars (.compileRun ext cCs rCs fn))).1).stderr =
          some (runCandidates host.exec cCs (host.vars (.compileRun ext cCs rCs fn))).1.stderr ∧
      (POST host code li).2 =
        [.mkdirE host.runDir,
         .writeE (host.filePath (.compileRun ext cCs rCs fn)) code] ++
          ((runCandidates host.exec cCs (host.vars (.compileRun ext cCs rCs fn))).2.map .spawnE) ++
          [.rmE host.runDir host.rmOk]) ∧
    ((runCandidates host.exec cCs (host.vars (.compileRun ext cCs rCs fn))).1.notFound = false →
      (runCandidates host.exec cCs (host.vars (.compileRun ext cCs rCs fn))).1.exitCode = 0 →
      (runCandidates host.exec cCs (host.vars (.compileRun ext cCs rCs fn))).1.timedOut = false →
      (runCandidates host.exec rCs (host.vars (.compileRun ext cCs rCs fn))).1.notFound = true →
      (POST host code li).1 = .response (compiledRuntimeMissingResponse (languageKey lang)
        (runCandidates host.exec rCs (host.vars (.compileRun ext cCs rCs fn))).1) ∧
      (compiledRuntimeMissingResponse (languageKey lang)
        (runCandidates host.exec rCs (host.vars (.compileRun ext cCs rCs fn))).1).status = 400 ∧
      (compiledRuntimeMissingResponse (languageKey lang)
        (runCandidates host.exec rCs (host.vars (.compileRun ext cCs rCs fn))).1).exitCode = some 127 ∧
      (compiledRuntimeMissingResponse (languageKey lang)
        (runCandidates host.exec rCs (host.vars (.compileRun ext cCs rCs fn))).1).error =
          some ("Compiled " ++ languageKey lang ++ ", but executable runtime is missing.")) ∧
    ((runCandidates host.exec cCs (host.vars (.compileRun ext cCs rCs fn))).1.notFound = false →
      (runCandidates host.exec cCs (host.vars (.compileRun ext cCs rCs fn))).1.exitCode = 0 →
      (runCandidates host.exec cCs (host.vars (.compileRun ext cCs rCs fn))).1.timedOut = false →
      (runCandidates host.exec rCs (host.vars (.compileRun ext cCs rCs fn))).1.notFound = false →
      (POST host code li).1 = .response (terminalResponse
        (runCandidates host.exec rCs (host.vars (.compileRun ext cCs rCs fn))).1)) := by
  have hpost := POST_guarded_eq host code li lang h1 h2 (by rw [h3]; rfl) h4
  rw [h3] at hpost
  refine ⟨?_, ?_, ?_, ?_⟩
  · intro hnf
    rw [hpost]
    simp [runPhases, hnf, compilerMissingResponse]
  · intro hnf hfail
    have hcond : ((runCandidates host.exec cCs
        (host.vars (.compileRun ext cCs rCs fn))).1.exitCode != 0 ||
        (runCandidates host.exec cCs (host.vars (.compileRun ext cCs rCs fn))).1.timedOut) = true := by
      rcases hfail with h | h
      · simp [bne_iff_ne, h]
      · simp [h]
    rw [hpost]
    simp [runPhases, hnf, hcond, compileFailedResponse]
  · intro hnf hexit htime hrnf
    have hcond : ((runCandidates host.exec cCs
        (host.vars (.compileRun ext cCs rCs fn))).1.exitCode != 0 ||
        (runCandidates host.exec cCs (host.vars (.compileRun ext cCs rCs fn))).1.timedOut) = false := by
      simp [bne_iff_ne, hexit, htime]
    rw [hpost]
    simp [runPhases, hnf, hcond, hrnf, compiledRuntimeMissingResponse]
  · intro hnf hexit htime hrnf
    have hcond : ((runCandidates host.exec cCs
        (host.vars (.compileRun ext cCs rCs fn))).1.exitCode != 0 ||
        (runCandidates host.exec cCs (host.vars (.compileRun ext cCs rCs fn))).1.timedOut) = false := by
      simp [bne_iff_ne, hexit, htime]
    rw [hpost]
    simp [runPhases, hnf, hcond, hrnf]

/-- Default host used by the concrete witnesses: a given spawn behaviour on
a POSIX platform, with temp root `/tmp` and UUID `u`, and both filesystem
operations succeeding. -/
def mkHost (exec : Candidate → ExecutionResult) : Host :=
  { exec := exec, writeOk := true, rmOk := true, isWin := false
    tmpDir := "/tmp", uuid := "u" }

lemma POST_compileFailed_eq (host : Host) (code li : String)
    (lang : RunLanguage) (ext : String) (cCs rCs : List Candidate)
    (fn : Option String) (h1 : isBlank code = false)
    (h2 : parseLanguage li = some lang)
    (h3 : LANGUAGE_SPECS lang = .compileRun ext cCs rCs fn)
    (h4 : host.writeOk = true)
    (hnf : (runCandidates host.exec cCs (host.vars (.compileRun ext cCs rCs fn))).1.notFound = false)
    (hfail : (runCandidates host.exec cCs (host.vars (.compileRun ext cCs rCs fn))).1.exitCode ≠ 0 ∨
      (runCandidates host.exec cCs (host.vars (.compileRun ext cCs rCs fn))).1.timedOut = true) :
    POST host code li =
      (.response (compileFailedResponse
        (runCandidates host.exec cCs (host.vars (.compileRun ext cCs rCs fn))).1),
       [.mkdirE host.runDir, .writeE (host.filePath (.compileRun ext cCs rCs fn)) code] ++
         ((runCandidates host.exec cCs (host.vars (.compileRun ext cCs rCs fn))).2.map .spawnE) ++
         [.rmE host.runDir host.rmOk]) := by
  have hpost := POST_guarded_eq host code li lang h1 h2 (by rw [h3]; rfl) h4
  rw [h3] at hpost
  have hcond : ((runCandidates host.exec cCs
      (host.vars (.compileRun ext cCs rCs fn))).1.exitCode != 0 ||
      (runCandidates host.exec cCs (host.vars (.compileRun ext cCs rCs fn))).1.timedOut) = true := by
    rcases hfail with h | h
    · simp [bne_iff_ne, h]
    · simp [h]
  rw [hpost]
  simp [runPhases, hnf, hcond]

lemma POST_runTerminal_eq (host : Host) (code li : String)
    (lang : RunLanguage) (ext : String) (cCs rCs : List Candidate)
    (fn : Option String) (h1 : isBlank code = false)
    (h2 : parseLanguage li = some lang)
    (h3 : LANGUAGE_SPECS lang = .compileRun ext cCs rCs fn)
    (h4 : host.writeOk = true)
    (hnf : (runCandidates host.exec cCs (host.vars (.compileRun ext cCs rCs fn))).1.notFound = false)
    (hexit : (runCandidates host.exec cCs (host.vars (.compileRun ext cCs rCs fn))).1.exitCode = 0)
    (htime : (runCandidates host.exec cCs (host.vars (.compileRun ext cCs rCs fn))).1.timedOut = false)
    (hrnf : (runCandidates host.exec rCs (host.vars (.compileRun ext cCs rCs fn))).1.notFound = false) :
    (POST host code li).1 =
      .response (terminalResponse
        (runCandidates host.exec rCs (host.vars (.compileRun ext cCs rCs fn))).1) := by
  have hpost := POST_guarded_eq host code li lang h1 h2 (by rw [h3]; rfl) h4
  rw [h3] at hpost
  have hcond : ((runCandidates host.exec cCs
      (host.vars (.compileRun ext cCs rCs fn))).1.exitCode != 0 ||
      (runCandidates host.exec cCs (host.vars (.compileRun ext cCs rCs fn))).1.timedOut) = false := by
    simp [bne_iff_ne, hexit, htime]
  rw [hpost]
  simp [runPhases, hnf, hcond, hrnf]

/-- Claim C3: whenever the final phase of an invocation produced a real
execution result (`notFound` false), the response carries status 200 and
`ok` equal to `exitCode == 0 && !timedOut`, with the result's exit code,
timeout flag, stdout and stderr passed through — for the single phase of a
direct language, for a failing compile phase of a compiled language, and
for the run phase of a compiled language; a nonzero exit or timeout is
thus a structured 200 response with `ok` false, never a request failure. -/
theorem claim3_terminal_result_contract :
    (∀ (host : Host) (code li : String) (lang : RunLanguage) (ext : String)
      (cs : List Candidate) (fn : Option String),
      isBlank code = false → parseLanguage li = some lang →
      LANGUAGE_SPECS lang = .direct ext cs fn → host.writeOk = true →
      (runCandidates host.exec cs (host.vars (.direct ext cs fn))).1.notFound = false →
      (POST host code li).1 =
        .response (terminalResponse (runCandidates host.exec cs (host.vars (.direct ext cs fn))).1) ∧
      ∀ res : ExecutionResult,
        (terminalResponse res).status = 200 ∧
        (terminalResponse res).ok = some (res.exitCode == 0 && !res.timedOut) ∧
        (terminalResponse res).exitCode = some res.exitCode ∧
        (terminalResponse res).timedOut = some res.timedOut ∧
        (terminalResponse res).stdout = some res.stdout ∧
        (terminalResponse res).stderr = some res.stderr ∧
        (res.exitCode ≠ 0 ∨ res.timedOut = true → (terminalResponse res).ok = some false)) ∧
    (∀ (host : Host) (code li : String) (lang : RunLanguage) (ext : String)
      (cCs rCs : List Candidate) (fn : Option String),
      isBlank code = false → parseLanguage li = some lang →
      LANGUAGE_SPECS lang = .compileRun ext cCs rCs fn → host.writeOk = true →
      (runCandidates host.exec cCs (host.vars (.compileRun ext cCs rCs fn))).1.notFound = false →
      ((runCandidates host.exec cCs (host.vars (.compileRun ext cCs rCs fn))).1.exitCode ≠ 0 ∨
        (runCandidates host.exec cCs (host.vars (.compileRun ext cCs rCs fn))).1.timedOut = true) →
      (POST host code li).1 =
        .response (compileFailedResponse
          (runCandidates host.exec cCs (host.vars (.compileRun ext cCs rCs fn))).1) ∧
      (compileFailedResponse
        (runCandidates host.exec cCs (host.vars (.compileRun ext cCs rCs fn))).1).status = 200 ∧
      (compileFailedResponse
        (runCandidates host.exec cCs (host.vars (.compileRun ext cCs rCs fn))).1).ok =
          some ((runCandidates host.exec cCs
            (host.vars (.compileRun ext cCs rCs fn))).1.exitCode == 0 &&
            !(runCandidates host.exec cCs (host.vars (.compileRun ext cCs rCs fn))).1.timedOut)) ∧
    (∀ (host : Host) (code li : String) (lang : RunLanguage) (ext : String)
      (cCs rCs : List Candidate) (fn : Option String),
      isBlank code = false → parseLanguage li = some lang →
      LANGUAGE_SPECS lang = .compileRun ext cCs rCs fn → host.writeOk = true →
      (runCandidates host.exec cCs (host.vars (.compileRun ext cCs rCs fn))).1.notFound = false →
      (runCandidates host.exec cCs (host.vars (.compileRun ext cCs rCs fn))).1.exitCode = 0 →
      (runCandidates host.exec cCs (host.vars (.compileRun ext cCs rCs fn))).1.timedOut = false →
      (runCandidates host.exec rCs (host.vars (.compileRun ext cCs rCs fn))).1.notFound = false →
      (POST host code li).1 =
        .response (terminalResponse
          (runCandidates host.exec rCs (host.vars (.compileRun ext cCs rCs fn))).1)) := by
  refine ⟨?_, ?_, ?_⟩
  · intro host code li lang ext cs fn h1 h2 h3 h4 hnf
    have hpost := POST_guarded_eq host code li lang h1 h2 (by rw [h3]; rfl) h4
    rw [h3] at hpost
    constructor
    · rw [hpost]
      simp [runPhases, hnf]
    · intro res
      refine ⟨rfl, rfl, rfl, rfl, rfl, rfl, ?_⟩
      intro hfail
      have : (res.exitCode == 0 && !res.timedOut) = false := by
        rcases hfail with h | h
        · simp [h]
        · simp [h]
      simp [terminalResponse, this]
  · intro host code li lang ext cCs rCs fn h1 h2 h3 h4 hnf hfail
    have h := POST_compileFailed_eq host code li lang ext cCs rCs fn h1 h2 h3 h4 hnf hfail
    have hok : ((runCandidates host.exec cCs
        (host.vars (.compileRun ext cCs rCs fn))).1.exitCode == 0 &&
        !(runCandidates host.exec cCs (host.vars (.compileRun ext cCs rCs fn))).1.timedOut) = false := by
      rcases hfail with hf | hf
      · simp [hf]
      · simp [hf]
    refine ⟨?_, rfl, by simp [compileFailedResponse, hok]⟩
    rw [h]
  · intro host code li lang ext cCs rCs fn h1 h2 h3 h4 hnf hexit htime hrnf
    exact POST_runTerminal_eq host code li lang ext cCs rCs fn h1 h2 h3 h4 hnf hexit htime hrnf

/-- Spawn behaviour for the C2 witness: `gcc` missing, `clang` present but
failing with exit code 1. -/
def cFailExec : Candidate → ExecutionResult := fun c =>
  if c.command = "clang" then
    { exitCode := 1, stdout := "", stderr := "cc1: error", timedOut := false, notFound := false }
  else notRunResult

/-- Witness for C2 at a concrete compiled language: C code whose compiler
fallback lands on a failing `clang`; the response is the compile-failure
result and the run phase contributes no spawn effect. -/
theorem claim2_two_phase_orchestration_witness :
    isBlank "int x;" = false ∧
    (POST (mkHost cFailExec) "int x;" "c").1 =
      .response (compileFailedResponse
        { exitCode := 1, stdout := "", stderr := "cc1: error"
          timedOut := false, notFound := false }) := by
  have h := claim2_two_phase_orchestration (mkHost cFailExec) "int x;" "c" .c "c"
    [⟨"gcc", ["{file}", "-O2", "-o", "{exe}"]⟩,
     ⟨"clang", ["{file}", "-O2", "-o", "{exe}"]⟩]
    [⟨"{exe}", []⟩] (some "main.c") (by decide) rfl rfl rfl
  have h2 := (h.2.1 (by decide) (Or.inl (by decide))).1
  exact ⟨by decide, h2.trans (by decide)⟩

/-- Spawn behaviour for the C3 witness: a `python` binary that exists and
exits with code 3. -/
def pyFailExec : Candidate → ExecutionResult := fun c =>
  if c.command = "python" then
    { exitCode := 3, stdout := "out", stderr := "boom", timedOut := false, notFound := false }
  else notRunResult

/-- Witness for C3 at a concrete direct language: a python program exiting
with code 3 is reported as a status-200 structured result with `ok` false. -/
theorem claim3_terminal_result_contract_witness :
    isBlank "print(1)" = false ∧
    (POST (mkHost pyFailExec) "print(1)" "python").1 =
      .response (terminalResponse
        { exitCode := 3, stdout := "out", stderr := "boom"
          timedOut := false, notFound := false }) ∧
    (terminalResponse
      { exitCode := 3, stdout := "out", stderr := "boom"
        timedOut := false, notFound := false }).status = 200 ∧
    (terminalResponse
      { exitCode := 3, stdout := "out", stderr := "boom"
        timedOut := false, notFound := false }).ok = some false := by
  have h := claim3_terminal_result_contract.1 (mkHost pyFailExec) "print(1)" "python"
    .python "py" [⟨"python", ["{file}"]⟩, ⟨"py", ["-3", "{file}"]⟩] none
    (by decide) rfl rfl rfl (by decide)
  refine ⟨by decide, h.1.trans (by decide), ?_, ?_⟩
  · exact (h.2 ⟨3, "out", "boom", false, false⟩).1
  · exact (h.2 ⟨3, "out", "boom", false, false⟩).2.2.2.2.2.2 (Or.inl (by decide))

lemma runCandidatesGo_acc_irrelevant (exec : Candidate → ExecutionResult)
    (vars : Vars) (c : Candidate) (rest : List Candidate)
    (last1 last2 : ExecutionResult) :
    runCandidatesGo exec vars (c :: rest) last1 =
      runCandidatesGo exec vars (c :: rest) last2 := rfl

/-- Claim C1: for every non-empty candidate list, the fallback search tries
candidates in declared order, moving past a candidate exactly when its
result has `notFound` true; the overall result is the result of the last
candidate attempted (index `k`), every earlier candidate reported
`notFound`, a `notFound` final result means the list was exhausted, and a
non-`notFound` final result — in particular a real nonzero exit — is
reported with its own exit code even when further candidates follow. -/
theorem claim1_candidate_fallback (exec : Candidate → ExecutionResult)
    (cs : List Candidate) (vars : Vars) (hne : cs ≠ []) :
    ∃ k : Nat, ∃ hk : k < cs.length,
      (runCandidates exec cs vars).1 = exec (materialize (cs.get ⟨k, hk⟩) vars) ∧
      (runCandidates exec cs vars).2 =
        (cs.take (k + 1)).map (fun c => materialize c vars) ∧
      (∀ j, ∀ hj : j < k,
        (exec (materialize (cs.get ⟨j, Nat.lt_trans hj hk⟩) vars)).notFound = true) ∧
      ((exec (materialize (cs.get ⟨k, hk⟩) vars)).notFound = true → k + 1 = cs.length) ∧
      ((exec (materialize (cs.get ⟨k, hk⟩) vars)).notFound = false →
        (runCandidates exec cs vars).1.exitCode =
          (exec (materialize (cs.get ⟨k, hk⟩) vars)).exitCode) := by
  induction cs with
  | nil => exact absurd rfl hne
  | cons c rest ih =>
    by_cases hr : (exec (materialize c vars)).notFound = true
    · cases rest with
      | nil =>
        refine ⟨0, by simp, ?_, ?_, ?_, ?_, ?_⟩
        · simp [runCandidates, runCandidatesGo, hr]
        · simp [runCandidates, runCandidatesGo, hr]
        · intro j hj; omega
        · intro _; simp
        · intro hfalse
          simp only [List.get] at hfalse
          rw [hr] at hfalse
          cases hfalse
      | cons c2 rest2 =>
        obtain ⟨k, hk, hres, hspawn, hprev, hexh, hexit⟩ := ih (by simp)
        have hunfold : runCandidatesGo exec vars (c :: c2 :: rest2) notRunResult =
            (if (exec (materialize c vars)).notFound then
              ((runCandidatesGo exec vars (c2 :: rest2) (exec (materialize c vars))).1,
                materialize c vars ::
                  (runCandidatesGo exec vars (c2 :: rest2) (exec (materialize c vars))).2)
            else (exec (materialize c vars), [materialize c vars])) := rfl
        have hstep : runCandidates exec (c :: c2 :: rest2) vars =
            ((runCandidates exec (c2 :: rest2) vars).1,
              materialize c vars :: (runCandidates exec (c2 :: rest2) vars).2) := by
          show runCandidatesGo exec vars (c :: c2 :: rest2) notRunResult = _
          rw [hunfold, if_pos hr,
            runCandidatesGo_acc_irrelevant exec vars c2 rest2
              (exec (materialize c vars)) notRunResult]
          rfl
        refine ⟨k + 1, by simpa using Nat.succ_lt_succ hk, ?_, ?_, ?_, ?_, ?_⟩
        · rw [hstep]; simpa using hres
        · rw [hstep, hspawn]; simp [List.take_succ_cons]
        · intro j hj
          cases j with
          | zero => simpa using hr
          | succ j' => simpa using hprev j' (by omega)
        · intro hnf
          have := hexh (by simpa using hnf)
          simpa [List.length] using congrArg Nat.succ this
        · intro hnf
          rw [hstep]
          simpa using hexit (by simpa using hnf)
    · have hr' : (exec (materialize c vars)).notFound = false := by
        cases h : (exec (materialize c vars)).notFound
        · rfl
        · exact absurd h hr
      have hstep : runCandidates exec (c :: rest) vars =
          (exec (materialize c vars), [materialize c vars]) := by
        show runCandidatesGo exec vars (c :: rest) notRunResult = _
        simp [runCandidatesGo, hr']
      refine ⟨0, by simp, ?_, ?_, ?_, ?_, ?_⟩
      · rw [hstep]
        rfl
      · rw [hstep]; simp
      · intro j hj; omega
      · intro hnf
        simp only [List.get] at hnf
        rw [hnf] at hr'
        cases hr'
      · intro _
        rw [hstep]
        rfl

/-- Spawn behaviour for the C1 witness: binary `a` missing, binary `b`
present but exiting 3, binary `cc` present and succeeding. -/
def fallbackExec : Candidate → ExecutionResult := fun c =>
  if c.command = "a" then notRunResult
  else if c.command = "b" then
    { exitCode := 3, stdout := "", stderr := "no luck", timedOut := false, notFound := false }
  else { exitCode := 0, stdout := "ok", stderr := "", timedOut := false, notFound := false }

/-- Witness for C1: with three candidates where the first is missing and
the second exits 3, the search stops at index 1 with exit code 3, never
spawning the configured third candidate. -/
theorem claim1_candidate_fallback_witness :
    (([⟨"a", []⟩, ⟨"b", []⟩, ⟨"cc", []⟩] : List Candidate) ≠ [] ∧
     (runCandidates fallbackExec [⟨"a", []⟩, ⟨"b", []⟩, ⟨"cc", []⟩] ⟨"", "", ""⟩).1 =
       { exitCode := 3, stdout := "", stderr := "no luck", timedOut := false, notFound := false } ∧
     (runCandidates fallbackExec [⟨"a", []⟩, ⟨"b", []⟩, ⟨"cc", []⟩] ⟨"", "", ""⟩).2 =
       [⟨"a", []⟩, ⟨"b", []⟩]) ∧
    (∃ k : Nat, ∃ hk : k < ([⟨"a", []⟩, ⟨"b", []⟩, ⟨"cc", []⟩] : List Candidate).length,
      (runCandidates fallbackExec [⟨"a", []⟩, ⟨"b", []⟩, ⟨"cc", []⟩] ⟨"", "", ""⟩).1 =
        fallbackExec (materialize (([⟨"a", []⟩, ⟨"b", []⟩, ⟨"cc", []⟩] : List Candidate).get ⟨k, hk⟩) ⟨"", "", ""⟩) ∧
      (runCandidates fallbackExec [⟨"a", []⟩, ⟨"b", []⟩, ⟨"cc", []⟩] ⟨"", "", ""⟩).2 =
        (([⟨"a", []⟩, ⟨"b", []⟩, ⟨"cc", []⟩] : List Candidate).take (k + 1)).map
          (fun c => materialize c ⟨"", "", ""⟩) ∧
      (∀ j, ∀ hj : j < k,
        (fallbackExec (materialize (([⟨"a", []⟩, ⟨"b", []⟩, ⟨"cc", []⟩] : List Candidate).get
          ⟨j, Nat.lt_trans hj hk⟩) ⟨"", "", ""⟩)).notFound = true) ∧
      ((fallbackExec (materialize (([⟨"a", []⟩, ⟨"b", []⟩, ⟨"cc", []⟩] : List Candidate).get ⟨k, hk⟩)
          ⟨"", "", ""⟩)).notFound = true →
        k + 1 = ([⟨"a", []⟩, ⟨"b", []⟩, ⟨"cc", []⟩] : List Candidate).length) ∧
      ((fallbackExec (materialize (([⟨"a", []⟩, ⟨"b", []⟩, ⟨"cc", []⟩] : List Candidate).get ⟨k, hk⟩)
          ⟨"", "", ""⟩)).notFound = false →
        (runCandidates fallbackExec [⟨"a", []⟩, ⟨"b", []⟩, ⟨"cc", []⟩] ⟨"", "", ""⟩).1.exitCode =
          (fallbackExec (materialize (([⟨"a", []⟩, ⟨"b", []⟩, ⟨"cc", []⟩] : List Candidate).get ⟨k, hk⟩)
            ⟨"", "", ""⟩)).exitCode)) :=
  ⟨⟨by decide, by decide, by decide⟩,
   claim1_candidate_fallback fallbackExec [⟨"a", []⟩, ⟨"b", []⟩, ⟨"cc", []⟩] ⟨"", "", ""⟩
     (by decide)⟩

lemma step_data_flags (s : RCState) (e : ChildEvent) (he : e.isData = true) :
    (s.step e).timedOut = s.timedOut ∧ (s.step e).notFound = s.notFound ∧
    (s.step e).finished = s.finished ∧ (s.step e).result = s.result := by
  cases e with
  | outData ch => simp only [RCState.step]; split <;> simp
  | errData ch => simp only [RCState.step]; split <;> simp
  | timerFired => simp [ChildEvent.isData] at he
  | spawnError enoent msg => simp [ChildEvent.isData] at he
  | close code => simp [ChildEvent.isData] at he

lemma foldl_data_flags : ∀ (pre : List ChildEvent),
    (∀ e ∈ pre, e.isData = true) → ∀ s : RCState,
    (pre.foldl RCState.step s).timedOut = s.timedOut ∧
    (pre.foldl RCState.step s).notFound = s.notFound ∧
    (pre.foldl RCState.step s).finished = s.finished ∧
    (pre.foldl RCState.step s).result = s.result := by
  intro pre
  induction pre with
  | nil => exact fun _ s => ⟨rfl, rfl, rfl, rfl⟩
  | cons e rest ih =>
    intro hall s
    have he := hall e (by simp)
    have hrest : ∀ x ∈ rest, x.isData = true := fun x hx => hall x (by simp [hx])
    obtain ⟨t1, n1, f1, r1⟩ := step_data_flags s e he
    obtain ⟨t2, n2, f2, r2⟩ := ih hrest (s.step e)
    exact ⟨by simp [t2, t1], by simp [n2, n1], by simp [f2, f1], by simp [r2, r1]⟩

/-- Claim C5: an `ENOENT` spawn error resolves the candidate with
`notFound` true and exit code 127, after which the search continues with
the next candidate; any other spawn error resolves with `notFound` false,
exit code 1 and the OS message appended to stderr, which ends the
candidate search with no further fallback. -/
theorem claim5_spawn_failure_taxonomy :
    (∀ (pre : List ChildEvent) (msg : String), (∀ e ∈ pre, e.isData = true) →
      runCommand (pre ++ [.spawnError true msg]) =
        some { exitCode := 127
               stdout := (pre.foldl RCState.step RCState.init).stdout
               stderr := (pre.foldl RCState.step RCState.init).stderr
               timedOut := false, notFound := true }) ∧
    (∀ (pre : List ChildEvent) (msg : String), (∀ e ∈ pre, e.isData = true) →
      runCommand (pre ++ [.spawnError false msg]) =
        some { exitCode := 1
               stdout := (pre.foldl RCState.step RCState.init).stdout
               stderr := (pre.foldl RCState.step RCState.init).stderr ++ msg
               timedOut := false, notFound := false }) ∧
    (∀ (exec : Candidate → ExecutionResult) (c : Candidate) (cs : List Candidate)
      (vars : Vars), (exec (materialize c vars)).notFound = true →
      runCandidates exec (c :: cs) vars =
        ((runCandidatesGo exec vars cs (exec (materialize c vars))).1,
          materialize c vars ::
            (runCandidatesGo exec vars cs (exec (materialize c vars))).2)) ∧
    (∀ (exec : Candidate → ExecutionResult) (c : Candidate) (cs : List Candidate)
      (vars : Vars), (exec (materialize c vars)).notFound = false →
      runCandidates exec (c :: cs) vars =
        (exec (materialize c vars), [materialize c vars])) := by
  refine ⟨?_, ?_, ?_, ?_⟩
  · intro pre msg hpre
    obtain ⟨ht, hn, hfin, _⟩ := foldl_data_flags pre hpre RCState.init
    have ht' : (List.foldl RCState.step RCState.init pre).timedOut = false := ht
    have hn' : (List.foldl RCState.step RCState.init pre).notFound = false := hn
    have hfin' : (List.foldl RCState.step RCState.init pre).finished = false := hfin
    show (List.foldl RCState.step RCState.init (pre ++ [.spawnError true msg])).result = _
    rw [List.foldl_append]
    simp [RCState.step, RCState.done, hfin', ht', hn']
  · intro pre msg hpre
    obtain ⟨ht, hn, hfin, _⟩ := foldl_data_flags pre hpre RCState.init
    have ht' : (List.foldl RCState.step RCState.init pre).timedOut = false := ht
    have hn' : (List.foldl RCState.step RCState.init pre).notFound = false := hn
    have hfin' : (List.foldl RCState.step RCState.init pre).finished = false := hfin
    show (List.foldl RCState.step RCState.init (pre ++ [.spawnError false msg])).result = _
    rw [List.foldl_append]
    simp [RCState.step, RCState.done, hfin', ht', hn']
  · intro exec c cs vars hr
    show runCandidatesGo exec vars (c :: cs) notRunResult = _
    simp only [runCandidatesGo, hr, if_true]
  · intro exec c cs vars hr
    show runCandidatesGo exec vars (c :: cs) notRunResult = _
    simp [runCandidatesGo, hr]

/-- Witness for C5 at concrete traces and candidates: one chunk of stderr
before the spawn error, and a two-candidate list where the first is
missing. -/
theorem claim5_spawn_failure_taxonomy_witness :
    ((∀ e ∈ ([.errData "x"] : List ChildEvent), e.isData = true) ∧
     runCommand [.errData "x", .spawnError true "spawn err"] =
       some { exitCode := 127, stdout := "", stderr := "x"
              timedOut := false, notFound := true } ∧
     runCommand [.errData "x", .spawnError false "spawn err"] =
       some { exitCode := 1, stdout := "", stderr := "xspawn err"
              timedOut := false, notFound := false }) ∧
    ((fallbackExec (materialize ⟨"a", []⟩ ⟨"", "", ""⟩)).notFound = true ∧
     runCandidates fallbackExec [⟨"a", []⟩, ⟨"b", []⟩] ⟨"", "", ""⟩ =
       ((runCandidatesGo fallbackExec ⟨"", "", ""⟩ [⟨"b", []⟩]
           (fallbackExec (materialize ⟨"a", []⟩ ⟨"", "", ""⟩))).1,
         materialize ⟨"a", []⟩ ⟨"", "", ""⟩ ::
           (runCandidatesGo fallbackExec ⟨"", "", ""⟩ [⟨"b", []⟩]
             (fallbackExec (materialize ⟨"a", []⟩ ⟨"", "", ""⟩))).2) ∧
     (fallbackExec (materialize ⟨"b", []⟩ ⟨"", "", ""⟩)).notFound = false ∧
     runCandidates fallbackExec [⟨"b", []⟩, ⟨"a", []⟩] ⟨"", "", ""⟩ =
       (fallbackExec (materialize ⟨"b", []⟩ ⟨"", "", ""⟩),
         [materialize ⟨"b", []⟩ ⟨"", "", ""⟩])) := by
  refine ⟨⟨by decide, ?_, ?_⟩, by decide,
    claim5_spawn_failure_taxonomy.2.2.1 fallbackExec ⟨"a", []⟩ [⟨"b", []⟩] ⟨"", "", ""⟩ (by decide),
    by decide,
    claim5_spawn_failure_taxonomy.2.2.2 fallbackExec ⟨"b", []⟩ [⟨"a", []⟩] ⟨"", "", ""⟩ (by decide)⟩
  · exact (claim5_spawn_failure_taxonomy.1 [.errData "x"] "spawn err" (by decide)).trans (by decide)
  · exact (claim5_spawn_failure_taxonomy.2.1 [.errData "x"] "spawn err" (by decide)).trans (by decide)

/-- Claim C9: a candidate killed by the timeout resolves with `timedOut`
true but exit code 0, because the signal-killed child reports a null exit
status which `code ?? 0` maps to 0; the terminal response's `ok` is then
false solely because of the timeout flag, its exit code being 0. -/
theorem claim9_timeout_null_exit (pre mid : List ChildEvent)
    (hpre : ∀ e ∈ pre, e.isData = true) (hmid : ∀ e ∈ mid, e.isData = true) :
    ∃ out err : String,
      runCommand (pre ++ .timerFired :: (mid ++ [.close none])) =
        some { exitCode := 0, stdout := out, stderr := err
               timedOut := true, notFound := false } ∧
      (terminalResponse
          { exitCode := 0, stdout := out, stderr := err,
            timedOut := true, notFound := false }).ok = some false ∧
      (terminalResponse
          { exitCode := 0, stdout := out, stderr := err,
            timedOut := true, notFound := false }).exitCode = some 0 := by
  obtain ⟨ht0, hn0, hf0, _⟩ := foldl_data_flags pre hpre RCState.init
  have hn0' : (List.foldl RCState.step RCState.init pre).notFound = false := hn0
  have hf0' : (List.foldl RCState.step RCState.init pre).finished = false := hf0
  have hstept : ((List.foldl RCState.step RCState.init pre).step .timerFired).timedOut = true := rfl
  have hstepn : ((List.foldl RCState.step RCState.init pre).step .timerFired).notFound =
      (List.foldl RCState.step RCState.init pre).notFound := rfl
  have hstepf : ((List.foldl RCState.step RCState.init pre).step .timerFired).finished =
      (List.foldl RCState.step RCState.init pre).finished := rfl
  obtain ⟨ht1, hn1, hf1, _⟩ := foldl_data_flags mid hmid
    ((List.foldl RCState.step RCState.init pre).step .timerFired)
  have hT : (List.foldl RCState.step
      ((List.foldl RCState.step RCState.init pre).step .timerFired) mid).timedOut = true :=
    ht1.trans hstept
  have hN : (List.foldl RCState.step
      ((List.foldl RCState.step RCState.init pre).step .timerFired) mid).notFound = false :=
    hn1.trans (hstepn.trans hn0')
  have hF : (List.foldl RCState.step
      ((List.foldl RCState.step RCState.init pre).step .timerFired) mid).finished = false :=
    hf1.trans (hstepf.trans hf0')
  refine ⟨(List.foldl RCState.step
      ((List.foldl RCState.step RCState.init pre).step .timerFired) mid).stdout,
    (List.foldl RCState.step
      ((List.foldl RCState.step RCState.init pre).step .timerFired) mid).stderr, ?_, rfl, rfl⟩
  show (List.foldl RCState.step RCState.init
    (pre ++ .timerFired :: (mid ++ [.close none]))).result = _
  rw [List.foldl_append, List.foldl_cons, List.foldl_append]
  show ((List.foldl RCState.step
    ((List.foldl RCState.step RCState.init pre).step .timerFired) mid).done 0).result = _
  rw [RCState.done, if_neg (by simp [hF])]
  simp only [hT, hN]

/-- Witness for C9: one stdout chunk, then the timer fires, then the
killed child closes with a null code. -/
theorem claim9_timeout_null_exit_witness :
    ((∀ e ∈ ([.outData "hi"] : List ChildEvent), e.isData = true) ∧
     runCommand [.outData "hi", .timerFired, .close none] =
       some { exitCode := 0, stdout := "hi", stderr := ""
              timedOut := true, notFound := false }) ∧
    ∃ out err : String,
      runCommand ([.outData "hi"] ++ .timerFired :: ([] ++ [.close none])) =
        some { exitCode := 0, stdout := out, stderr := err
               timedOut := true, notFound := false } ∧
      (terminalResponse
          { exitCode := 0, stdout := out, stderr := err,
            timedOut := true, notFound := false }).ok = some false ∧
      (terminalResponse
          { exitCode := 0, stdout := out, stderr := err,
            timedOut := true, notFound := false }).exitCode = some 0 :=
  ⟨⟨by decide, by decide⟩,
   claim9_timeout_null_exit [.outData "hi"] [] (by decide) (by decide)⟩

lemma step_outData_append (s : RCState) (ch : String)
    (h : s.stdout.length < MAX_OUTPUT) :
    s.step (.outData ch) = { s with stdout := s.stdout ++ ch } := by
  simp only [RCState.step, if_pos h]

lemma step_close_result (s : RCState) (code : Option Int)
    (h : s.finished = false) :
    (s.step (.close code)).result =
      some { exitCode := code.getD 0, stdout := s.stdout, stderr := s.stderr
             timedOut := s.timedOut, notFound := s.notFound } := by
  simp only [RCState.step, RCState.done]
  rw [if_neg (by simp [h])]

/-- Claim C4 counterexample: a first stdout chunk of 199999 characters
leaves the accumulator one short of the cap, so the next chunk is still
appended whole and the final stdout is 200001 characters — more than the
200000-character cap the claim asserts as an upper bound. -/
theorem claim4_output_cap_counterexample :
    ∃ r : ExecutionResult,
      runCommand [.outData (String.mk (List.replicate 199999 'a')), .outData "bb",
        .close (some 0)] = some r ∧
      MAX_OUTPUT < r.stdout.length ∧ r.exitCode = 0 ∧ r.timedOut = false := by
  have hbig : (String.mk (List.replicate 199999 'a')).length = 199999 := by
    show (List.replicate 199999 'a').length = 199999
    exact List.length_replicate 199999 'a'
  have hemp : ("" : String).length = 0 := rfl
  have l1 : (("" : String) ++ String.mk (List.replicate 199999 'a')).length = 199999 := by
    rw [String.length_append, hbig, hemp]
  have e1 : RCState.step RCState.init (.outData (String.mk (List.replicate 199999 'a'))) =
      ⟨("" : String) ++ String.mk (List.replicate 199999 'a'), "", false, false, false, none⟩ := by
    simp only [RCState.step]
    rw [if_pos (by decide)]
    exact rfl
  have e2 : RCState.step
      (⟨("" : String) ++ String.mk (List.replicate 199999 'a'), "", false, false, false, none⟩ : RCState)
      (.outData "bb") =
      ⟨(("" : String) ++ String.mk (List.replicate 199999 'a')) ++ "bb", "", false, false, false, none⟩ := by
    simp only [RCState.step]
    rw [if_pos ?cond]
    case cond =>
      show (("" : String) ++ String.mk (List.replicate 199999 'a')).length < MAX_OUTPUT
      rw [l1]
      decide
  have e3 : (RCState.step
      (⟨(("" : String) ++ String.mk (List.replicate 199999 'a')) ++ "bb", "", false, false, false, none⟩ : RCState)
      (.close (some 0))).result =
      some ⟨0, (("" : String) ++ String.mk (List.replicate 199999 'a')) ++ "bb", "", false, false⟩ := by
    rw [step_close_result _ _ rfl]
    exact rfl
  refine ⟨⟨0, (("" : String) ++ String.mk (List.replicate 199999 'a')) ++ "bb", "", false, false⟩,
    ?_, ?_, rfl, rfl⟩
  · rw [runCommand_eq, List.foldl_cons, List.foldl_cons, List.foldl_cons,
      List.foldl_nil, e1, e2, e3]
  · show MAX_OUTPUT < ((("" : String) ++ String.mk (List.replicate 199999 'a')) ++ "bb").length
    rw [String.length_append, l1]
    decide

/-- The bound an output accumulator actually satisfies relative to a chunk
bound `c`: the buffered stream stays below cap plus one chunk, and so does
the stdout of any resolved result. -/
def capInv (c : Nat) (s : RCState) : Prop :=
  s.stdout.length < MAX_OUTPUT + c ∧
  ∀ r : ExecutionResult, s.result = some r → r.stdout.length < MAX_OUTPUT + c

lemma done_capInv (c : Nat) (s : RCState) (k : Int) (h : capInv c s) :
    capInv c (s.done k) := by
  obtain ⟨h1, h2⟩ := h
  simp only [RCState.done]
  split
  · exact ⟨h1, h2⟩
  · refine ⟨h1, ?_⟩
    intro r hr
    have hr' : r = { exitCode := k, stdout := s.stdout, stderr := s.stderr
                     timedOut := s.timedOut, notFound := s.notFound } :=
      (Option.some.inj hr).symm
    rw [hr']
    exact h1

lemma step_capInv (c : Nat) (s : RCState) (e : ChildEvent)
    (he : ∀ ch : String, e = .outData ch → ch.length ≤ c)
    (h : capInv c s) : capInv c (s.step e) := by
  obtain ⟨h1, h2⟩ := h
  cases e with
  | outData ch =>
    have hch := he ch rfl
    simp only [RCState.step]
    split
    · rename_i hlt
      refine ⟨?_, h2⟩
      show (s.stdout ++ ch).length < MAX_OUTPUT + c
      rw [String.length_append]
      omega
    · exact ⟨h1, h2⟩
  | errData ch =>
    simp only [RCState.step]
    split
    · exact ⟨h1, h2⟩
    · exact ⟨h1, h2⟩
  | timerFired => exact ⟨h1, h2⟩
  | spawnError enoent msg =>
    simp only [RCState.step]
    split
    · exact done_capInv c _ 127 ⟨h1, h2⟩
    · exact done_capInv c _ 1 ⟨h1, h2⟩
  | close code => exact done_capInv c _ (code.getD 0) ⟨h1, h2⟩

lemma foldl_capInv (c : Nat) : ∀ (events : List ChildEvent) (s : RCState),
    (∀ ch : String, ChildEvent.outData ch ∈ events → ch.length ≤ c) →
    capInv c s → capInv c (events.foldl RCState.step s) := by
  intro events
  induction events with
  | nil => exact fun s _ h => h
  | cons e rest ih =>
    intro s hall h
    exact ih (s.step e) (fun ch hch => hall ch (by simp [hch]))
      (step_capInv c s e (fun ch hche => hall ch (by rw [hche]; simp)) h)

/-- Claim C4 as amended: when every stdout chunk is at most `c` characters,
the resolved stdout stays below the 200000-character cap plus one chunk
(the append-time check lets the chunk that crosses the cap through whole);
once a stream has reached the cap no event changes it any further; a step
never truncates what is already buffered; and the exit code of a program
that runs to completion is reported faithfully alongside the capped
output. -/
theorem claim4_output_capping (events : List ChildEvent) (c : Nat)
    (hc : ∀ ch : String, ChildEvent.outData ch ∈ events → ch.length ≤ c) :
    (∀ r : ExecutionResult, runCommand events = some r →
      r.stdout.length < MAX_OUTPUT + c) ∧
    (∀ (s : RCState) (e : ChildEvent), MAX_OUTPUT ≤ s.stdout.length →
      (s.step e).stdout = s.stdout) ∧
    (∀ (s : RCState) (e : ChildEvent), ∃ t : String,
      (s.step e).stdout = s.stdout ++ t) ∧
    (∀ (pre : List ChildEvent) (code : Int), (∀ e ∈ pre, e.isData = true) →
      ∃ r : ExecutionResult,
        runCommand (pre ++ [.close (some code)]) = some r ∧
        r.exitCode = code ∧ r.timedOut = false) := by
  refine ⟨?_, ?_, ?_, ?_⟩
  · intro r hr
    have hinit : capInv c RCState.init := by
      constructor
      · show ("" : String).length < MAX_OUTPUT + c
        have h0 : ("" : String).length = 0 := rfl
        have hm : MAX_OUTPUT = 200000 := rfl
        omega
      · intro r' hr'
        cases hr'
    have := (foldl_capInv c events RCState.init hc hinit).2 r hr
    exact this
  · intro s e hge
    cases e with
    | outData ch =>
      simp only [RCState.step]
      rw [if_neg (by omega)]
    | errData ch =>
      simp only [RCState.step]
      split <;> rfl
    | timerFired => rfl
    | spawnError enoent msg =>
      simp only [RCState.step, RCState.done]
      split <;> split <;> rfl
    | close code =>
      simp only [RCState.step, RCState.done]
      split <;> rfl
  · intro s e
    cases e with
    | outData ch =>
      simp only [RCState.step]
      split
      · exact ⟨ch, rfl⟩
      · exact ⟨"", (String.append_empty s.stdout).symm⟩
    | errData ch =>
      refine ⟨"", ?_⟩
      simp only [RCState.step]
      split <;> exact (String.append_empty s.stdout).symm
    | timerFired => exact ⟨"", (String.append_empty s.stdout).symm⟩
    | spawnError enoent msg =>
      refine ⟨"", ?_⟩
      simp only [RCState.step, RCState.done]
      split <;> split <;> exact (String.append_empty s.stdout).symm
    | close code =>
      refine ⟨"", ?_⟩
      simp only [RCState.step, RCState.done]
      split <;> exact (String.append_empty s.stdout).symm
  · intro pre code hpre
    obtain ⟨ht, hn, hfin, _⟩ := foldl_data_flags pre hpre RCState.init
    have ht' : (List.foldl RCState.step RCState.init pre).timedOut = false := ht
    have hn' : (List.foldl RCState.step RCState.init pre).notFound = false := hn
    have hfin' : (List.foldl RCState.step RCState.init pre).finished = false := hfin
    refine ⟨⟨code, (List.foldl RCState.step RCState.init pre).stdout,
      (List.foldl RCState.step RCState.init pre).stderr, false, false⟩, ?_, rfl, rfl⟩
    show (List.foldl RCState.step RCState.init (pre ++ [.close (some code)])).result = _
    rw [List.foldl_append]
    show ((List.foldl RCState.step RCState.init pre).done code).result = _
    rw [RCState.done, if_neg (by simp [hfin'])]
    simp only [ht', hn']

/-- Witness for the amended C4: a two-chunk trace with chunk bound 4 whose
program exits 0; the resolved stdout length is under the cap plus 4. -/
theorem claim4_output_capping_witness :
    (∀ ch : String,
      ChildEvent.outData ch ∈ ([.outData "abcd", .outData "ef", .close (some 0)] :
        List ChildEvent) → ch.length ≤ 4) ∧
    (∀ r : ExecutionResult,
      runCommand [.outData "abcd", .outData "ef", .close (some 0)] = some r →
      r.stdout.length < MAX_OUTPUT + 4) ∧
    runCommand [.outData "abcd", .outData "ef", .close (some 0)] =
      some { exitCode := 0, stdout := "abcdef", stderr := ""
             timedOut := false, notFound := false } := by
  have hc : ∀ ch : String,
      ChildEvent.outData ch ∈ ([.outData "abcd", .outData "ef", .close (some 0)] :
        List ChildEvent) → ch.length ≤ 4 := by
    intro ch hch
    simp only [List.mem_cons, List.not_mem_nil, or_false] at hch
    rcases hch with h | h | h
    · cases h; decide
    · cases h; decide
    · cases h
  exact ⟨hc,
    (claim4_output_capping [.outData "abcd", .outData "ef", .close (some 0)] 4 hc).1,
    by decide⟩

/-- Whether a character list begins with one of the three placeholder
tokens the substitution regex recognizes. -/
def startsWithToken (l : List Char) : Bool :=
  (l.take 6 == "{file}".data) || (l.take 5 == "{exe}".data) || (l.take 5 == "{dir}".data)

lemma applyVarsList_cons (vars : Vars) (c : Char) (rest : List Char)
    (h : startsWithToken (c :: rest) = false) :
    applyVarsList vars (c :: rest) = c :: applyVarsList vars rest := by
  rw [applyVarsList.eq_def]
  split
  · rename_i heq
    injection heq with h1 h2
    subst h1
    subst h2
    simp [startsWithToken] at h
  · rename_i heq
    injection heq with h1 h2
    subst h1
    subst h2
    simp [startsWithToken] at h
  · rename_i heq
    injection heq with h1 h2
    subst h1
    subst h2
    simp [startsWithToken] at h
  · rename_i heq
    injection heq with h1 h2
    subst h1
    subst h2
    rfl
  · rename_i heq
    cases heq

lemma applyVarsList_id (vars : Vars) : ∀ l : List Char,
    (∀ i : Nat, startsWithToken (l.drop i) = false) →
    applyVarsList vars l = l := by
  intro l
  induction l with
  | nil => exact fun _ => rfl
  | cons c rest ih =>
    intro h
    rw [applyVarsList_cons vars c rest (h 0), ih (fun i => h (i + 1))]

/-- Claim C10: substitution replaces exactly the occurrences of the three
placeholders `\x7bfile\x7d`, `\x7bexe\x7d`, `\x7bdir\x7d` — a leading token
is replaced by the corresponding variable and scanning continues after it;
a character that does not start a token (hence any other brace-delimited
text) is copied unchanged; a string containing no token anywhere is
returned verbatim; and `materialize` applies this to the command and to
every argument of a candidate. -/
theorem claim10_placeholder_substitution (vars : Vars) :
    (∀ rest : String, applyVars ("{file}" ++ rest) vars = vars.file ++ applyVars rest vars) ∧
    (∀ rest : String, applyVars ("{exe}" ++ rest) vars = vars.exe ++ applyVars rest vars) ∧
    (∀ rest : String, applyVars ("{dir}" ++ rest) vars = vars.dir ++ applyVars rest vars) ∧
    applyVars "" vars = "" ∧
    (∀ (c : Char) (rest : List Char), startsWithToken (c :: rest) = false →
      applyVars ⟨c :: rest⟩ vars = ⟨c :: applyVarsList vars rest⟩) ∧
    (∀ s : String, (∀ i : Nat, startsWithToken (s.data.drop i) = false) →
      applyVars s vars = s) ∧
    (∀ (command : String) (args : List String),
      materialize ⟨command, args⟩ vars =
        ⟨applyVars command vars, args.map (fun arg => applyVars arg vars)⟩) := by
  refine ⟨fun rest => rfl, fun rest => rfl, fun rest => rfl, rfl, ?_, ?_, fun c a => rfl⟩
  · intro c rest h
    show (⟨applyVarsList vars (c :: rest)⟩ : String) = _
    rw [applyVarsList_cons vars c rest h]
  · intro s h
    show (⟨applyVarsList vars s.data⟩ : String) = s
    rw [applyVarsList_id vars s.data h]

/-- Witness for C10 at concrete inputs: a command mixing a real token, an
unknown brace token and plain text, plus a candidate materialization. -/
theorem claim10_placeholder_substitution_witness :
    applyVars ("{file}" ++ " x") ⟨"F", "E", "D"⟩ = "F" ++ applyVars " x" ⟨"F", "E", "D"⟩ ∧
    applyVars "" ⟨"F", "E", "D"⟩ = "" ∧
    (∀ i : Nat, startsWithToken (("a{other}b" : String).data.drop i) = false) ∧
    applyVars "a{other}b" ⟨"F", "E", "D"⟩ = "a{other}b" ∧
    applyVars "a{file}b{other}{dir}" ⟨"F", "E", "D"⟩ = "aFb{other}D" ∧
    materialize ⟨"{exe}.exe", ["{file}", "-o", "{exe}"]⟩ ⟨"F", "E", "D"⟩ =
      ⟨"E.exe", ["F", "-o", "E"]⟩ := by
  have h := claim10_placeholder_substitution ⟨"F", "E", "D"⟩
  have hid : ∀ i : Nat, startsWithToken (("a{other}b" : String).data.drop i) = false := by
    intro i
    by_cases hb : i ≤ 9
    · interval_cases i <;> decide
    · have : (("a{other}b" : String).data.drop i) = [] := by
        apply List.drop_eq_nil_of_le
        have : ("a{other}b" : String).data.length = 9 := by decide
        omega
      rw [this]
      decide
  exact ⟨h.1 " x", h.2.2.2.1, hid, h.2.2.2.2.2.1 "a{other}b" hid, by decide, by decide⟩

end RunRoute
